import Mathlib

/-!
Verification development for the Shakesapp query service
(`step2/src/server/server.py`).

The server's request pipeline is embedded shallowly:

* `pySplit` models Python `text.split("\n")` on character lists;
* `lowerStr` models Python `str.lower()` (ASCII case folding, which covers
  every input appearing in this development);
* `Regex`, `parseRegex` and `rsearch` model the part of Python's `re`
  library the server uses: `re.search(pattern, line)` over the common
  pattern subset (literals, `.`, character classes, grouping, alternation,
  `*`, `+`, `?`, escapes). Counted repeats and anchors are outside the
  modelled subset and reported as parse errors;
* `ShakesappService.GetMatchCount` is the handler's counting loop,
  `read_files_multi` the decode stage of the corpus fetch, and
  `ShakesappService.Check` / `ShakesappService.Watch` the health handlers.

Fallible steps (pattern compilation, UTF-8 decoding) return `Except`,
mirroring Python exceptions escaping the handler.
-/

namespace Shakesapp

/-- Item of a regex character class: a single character or an inclusive
range, as in `[abc0-9]`. -/
inductive ClassItem where
  | single : Char → ClassItem
  | range : Char → Char → ClassItem
deriving DecidableEq, Repr

/-- Abstract syntax of the modelled regex subset of Python `re`. -/
inductive Regex where
  | emptyset : Regex
  | epsilon : Regex
  | lit : Char → Regex
  | dot : Regex
  | cls : Bool → List ClassItem → Regex
  | cat : Regex → Regex → Regex
  | alt : Regex → Regex → Regex
  | star : Regex → Regex
deriving DecidableEq, Repr

/-- Does a class item match character `c`? -/
def ClassItem.matchesChar (c : Char) : ClassItem → Bool
  | .single a => c = a
  | .range lo hi => lo ≤ c && c ≤ hi

/-- Does the character class (negated when `neg`) match `c`? -/
def matchesClass (neg : Bool) (items : List ClassItem) (c : Char) : Bool :=
  let m := items.any (ClassItem.matchesChar c)
  if neg then !m else m

/-- Nullability: does the regex accept the empty string? -/
def Regex.nullable : Regex → Bool
  | .emptyset => false
  | .epsilon => true
  | .lit _ => false
  | .dot => false
  | .cls _ _ => false
  | .cat a b => a.nullable && b.nullable
  | .alt a b => a.nullable || b.nullable
  | .star _ => true

/-- Brzozowski derivative of the regex with respect to character `c`.
Python `.` does not match a newline (no DOTALL flag in the server). -/
def Regex.deriv : Regex → Char → Regex
  | .emptyset, _ => .emptyset
  | .epsilon, _ => .emptyset
  | .lit a, c => if a = c then .epsilon else .emptyset
  | .dot, c => if c = '\n' then .emptyset else .epsilon
  | .cls neg items, c => if matchesClass neg items c then .epsilon else .emptyset
  | .cat a b, c =>
      if a.nullable then .alt (.cat (a.deriv c) b) (b.deriv c)
      else .cat (a.deriv c) b
  | .alt a b, c => .alt (a.deriv c) (b.deriv c)
  | .star r, c => .cat (r.deriv c) (.star r)

/-- Does `r` match some prefix (possibly empty) of `s`? -/
def matchesSomeStart (r : Regex) : List Char → Bool
  | [] => r.nullable
  | c :: cs => r.nullable || matchesSomeStart (r.deriv c) cs

/-- Model of Python `re.search(r, s) is not None`: does `r` match a
substring of `s` starting at some position? -/
def rsearch (r : Regex) (s : List Char) : Bool :=
  match s with
  | [] => r.nullable
  | c :: cs => matchesSomeStart r (c :: cs) || rsearch r cs

/-- Items of a character class body, after any leading `^` and any literal
leading `]` have been consumed; consumes the closing `]`. Error messages
follow Python `re`. -/
def classItems : List Char → Except String (List ClassItem × List Char)
  | [] => .error "unterminated character set"
  | ']' :: rest => .ok ([], rest)
  | '\\' :: [] => .error "bad escape (end of pattern)"
  | '\\' :: c :: rest =>
      match classItems rest with
      | .error e => .error e
      | .ok (is, r) => .ok (.single c :: is, r)
  | c :: '-' :: ']' :: rest => .ok ([.single c, .single '-'], rest)
  | _ :: '-' :: [] => .error "unterminated character set"
  | c :: '-' :: d :: rest =>
      if c ≤ d then
        match classItems rest with
        | .error e => .error e
        | .ok (is, r) => .ok (.range c d :: is, r)
      else .error "bad character range"
  | c :: rest =>
      match classItems rest with
      | .error e => .error e
      | .ok (is, r) => .ok (.single c :: is, r)

/-- Parse a character class: the input starts right after the opening `[`.
A `]` directly after `[` (or after `[^`) is a literal, as in Python. -/
def parseClass (cs : List Char) : Except String (Regex × List Char) :=
  let (neg, body) :=
    match cs with
    | '^' :: rest => (true, rest)
    | _ => (false, cs)
  match body with
  | ']' :: rest =>
      match classItems rest with
      | .error e => .error e
      | .ok (is, r) => .ok (.cls neg (.single ']' :: is), r)
  | _ =>
      match classItems body with
      | .error e => .error e
      | .ok (is, r) => .ok (.cls neg is, r)

/-- Translate an escape sequence `\c` outside a class. Known class escapes
become character classes; escaping a letter or digit with no meaning is an
error, any other character escapes to itself, as in Python. -/
def escAtom (c : Char) : Except String Regex :=
  if c = 'd' then .ok (.cls false [.range '0' '9'])
  else if c = 'D' then .ok (.cls true [.range '0' '9'])
  else if c = 'w' then
    .ok (.cls false [.range 'a' 'z', .range 'A' 'Z', .range '0' '9', .single '_'])
  else if c = 'W' then
    .ok (.cls true [.range 'a' 'z', .range 'A' 'Z', .range '0' '9', .single '_'])
  else if c = 's' then
    .ok (.cls false [.single ' ', .single '\t', .single '\n',
                     .single '\x0b', .single '\x0c', .single '\r'])
  else if c = 'S' then
    .ok (.cls true [.single ' ', .single '\t', .single '\n',
                    .single '\x0b', .single '\x0c', .single '\r'])
  else if c.isAlpha || c.isDigit then .error "bad escape"
  else .ok (.lit c)

/-- Apply the repetition operators `*`, `+`, `?` following an atom. A second
consecutive repetition operator is an error, as in Python. -/
def applyReps (r : Regex) : List Char → Except String (Regex × List Char)
  | '*' :: '*' :: _ => .error "multiple repeat"
  | '*' :: '+' :: _ => .error "multiple repeat"
  | '*' :: '?' :: _ => .error "multiple repeat"
  | '*' :: rest => .ok (.star r, rest)
  | '+' :: '*' :: _ => .error "multiple repeat"
  | '+' :: '+' :: _ => .error "multiple repeat"
  | '+' :: '?' :: _ => .error "multiple repeat"
  | '+' :: rest => .ok (.cat r (.star r), rest)
  | '?' :: '*' :: _ => .error "multiple repeat"
  | '?' :: '+' :: _ => .error "multiple repeat"
  | '?' :: '?' :: _ => .error "multiple repeat"
  | '?' :: rest => .ok (.alt r .epsilon, rest)
  | rest => .ok (r, rest)

/-- Parser modes: alternation level, concatenation level, single atom. -/
inductive PMode where
  | palt : PMode
  | pcat : PMode
  | patom : PMode
deriving DecidableEq, Repr

/-- Recursive-descent parser for the modelled regex subset, with explicit
fuel (the recursion depth is bounded by the pattern length, see
`parseRegex`). Unsupported Python constructs (anchors `^` `$`) are
reported as errors and are therefore outside the well-formed subset. -/
def parseRx : Nat → PMode → List Char → Except String (Regex × List Char)
  | 0, _, _ => .error "pattern too deeply nested for this model"
  | fuel + 1, .palt, cs =>
      match parseRx fuel .pcat cs with
      | .error e => .error e
      | .ok (r, rest) =>
          match rest with
          | '|' :: rest2 =>
              match parseRx fuel .palt rest2 with
              | .error e => .error e
              | .ok (r2, rest3) => .ok (.alt r r2, rest3)
          | _ => .ok (r, rest)
  | fuel + 1, .pcat, cs =>
      match cs with
      | [] => .ok (.epsilon, [])
      | c :: _ =>
          if c = '|' || c = ')' then .ok (.epsilon, cs)
          else
            match parseRx fuel .patom cs with
            | .error e => .error e
            | .ok (r1, rest) =>
                match applyReps r1 rest with
                | .error e => .error e
                | .ok (r1rep, rest2) =>
                    match parseRx fuel .pcat rest2 with
                    | .error e => .error e
                    | .ok (r2, rest3) => .ok (.cat r1rep r2, rest3)
  | fuel + 1, .patom, cs =>
      match cs with
      | [] => .error "expected an atom"
      | '(' :: rest =>
          match parseRx fuel .palt rest with
          | .error e => .error e
          | .ok (r, rest2) =>
              match rest2 with
              | ')' :: rest3 => .ok (r, rest3)
              | _ => .error "missing ), unterminated subpattern"
      | '[' :: rest => parseClass rest
      | '\\' :: [] => .error "bad escape (end of pattern)"
      | '\\' :: c :: rest =>
          match escAtom c with
          | .error e => .error e
          | .ok r => .ok (r, rest)
      | '*' :: _ => .error "nothing to repeat"
      | '+' :: _ => .error "nothing to repeat"
      | '?' :: _ => .error "nothing to repeat"
      | '^' :: _ => .error "anchor not in the modelled subset"
      | '$' :: _ => .error "anchor not in the modelled subset"
      | '.' :: rest => .ok (.dot, rest)
      | c :: rest => .ok (.lit c, rest)

/-- Model of Python pattern compilation (`re.search` compiles its pattern
argument): parse a whole pattern, failing on malformed input. The fuel
`4 * length + 8` dominates the parser's recursion depth: each
non-consuming descent chain `palt → pcat → applyReps-free patom` has
length at most 4 before a character is consumed. -/
def parseRegex (q : List Char) : Except String Regex :=
  match parseRx (4 * q.length + 8) .palt q with
  | .error e => .error e
  | .ok (r, []) => .ok r
  | .ok (_, _ :: _) => .error "unbalanced parenthesis"

/-- Model of Python `text.split("\n")` on character lists: splitting any
string (the empty one included) yields at least one segment, and a
trailing separator yields a trailing empty segment, exactly as in Python. -/
def pySplit : List Char → List (List Char)
  | [] => [[]]
  | c :: rest =>
      if c = '\n' then [] :: pySplit rest
      else
        match pySplit rest with
        | [] => [[c]]
        | s :: ss => (c :: s) :: ss

/-- Model of Python `str.lower()` restricted to ASCII case folding. -/
def lowerStr (cs : List Char) : List Char :=
  cs.map Char.toLower

/-- One `re.search(query, line.lower())` call of the counting loop: the
pattern (already lowercased by the handler) is compiled, which fails on a
malformed query, and then searched in the lowercased line. -/
def searchLine (q l : List Char) : Except String Bool :=
  match parseRegex q with
  | .error e => .error e
  | .ok r => .ok (rsearch r (lowerStr l))

/-- Inner loop of `GetMatchCount`: fold over the lines of one document,
incrementing the count for each line the query matches. -/
def countLinesM (q : List Char) (acc : Nat) : List (List Char) → Except String Nat
  | [] => .ok acc
  | l :: ls =>
      match searchLine q l with
      | .error e => .error e
      | .ok m => countLinesM q (if m then acc + 1 else acc) ls

/-- Per-document step of `GetMatchCount`: split the text on newlines and
run the line loop. -/
def countDoc (q : List Char) (acc : Nat) (text : List Char) : Except String Nat :=
  countLinesM q acc (pySplit text)

/-- Outer loop of `GetMatchCount` over the fetched documents. -/
def countTextsM (q : List Char) (acc : Nat) : List (List Char) → Except String Nat
  | [] => .ok acc
  | t :: ts =>
      match countDoc q acc t with
      | .error e => .error e
      | .ok c => countTextsM q c ts

namespace ShakesappService

/-- The counting phase of `ShakesappService.GetMatchCount`, applied to the
corpus snapshot `texts` fetched for this request: the query is lowercased
once, every document is split on newlines, every line is lowercased and
searched, and the number of matching lines is accumulated. A regex error
escapes as `Except.error`, modelling the Python exception aborting the
RPC with no count. -/
def GetMatchCount (texts : List (List Char)) (query : List Char) : Except String Nat :=
  countTextsM (lowerStr query) 0 texts

/-- Modelled from the spec: the health status enumeration of the external
`health_pb2` module (not under `src/`), per the data model section
({SERVING, NOT_SERVING, UNKNOWN, UNIMPLEMENTED}) joined with the standard
contract values listed at the external interface ({UNKNOWN, SERVING,
NOT_SERVING, SERVICE_UNKNOWN}). -/
inductive HealthStatus where
  | UNKNOWN : HealthStatus
  | SERVING : HealthStatus
  | NOT_SERVING : HealthStatus
  | SERVICE_UNKNOWN : HealthStatus
  | UNIMPLEMENTED : HealthStatus
deriving DecidableEq, Repr

/-- `ShakesappService.Check`: the handler ignores the request's service
name and answers SERVING. -/
def Check (service : String) : HealthStatus :=
  HealthStatus.SERVING

/-- `ShakesappService.Watch`: the handler ignores the request's service
name and produces the single status UNIMPLEMENTED, after which the stream
holds nothing further (the returned list is the whole stream). -/
def Watch (service : String) : List HealthStatus :=
  [HealthStatus.UNIMPLEMENTED]

end ShakesappService

/-- Strict UTF-8 decoding of one downloaded blob, modelling Python
`bytes.decode("utf-8")`: multi-byte sequences are range-checked, overlong
encodings, surrogates and out-of-range code points are rejected, and any
ill-formed byte raises a decode error. -/
def utf8Decode : List Nat → Except String (List Char)
  | [] => .ok []
  | b :: rest =>
      if b < 0x80 then
        match utf8Decode rest with
        | .error e => .error e
        | .ok cs => .ok (Char.ofNat b :: cs)
      else if b < 0xc2 then .error "invalid start byte"
      else if b < 0xe0 then
        match rest with
        | [] => .error "unexpected end of data"
        | b2 :: rest2 =>
            if 0x80 ≤ b2 && b2 < 0xc0 then
              match utf8Decode rest2 with
              | .error e => .error e
              | .ok cs => .ok (Char.ofNat ((b - 0xc0) * 64 + (b2 - 0x80)) :: cs)
            else .error "invalid continuation byte"
      else if b < 0xf0 then
        match rest with
        | [] => .error "unexpected end of data"
        | [_] => .error "unexpected end of data"
        | b2 :: b3 :: rest3 =>
            if !(0x80 ≤ b2 && b2 < 0xc0) then .error "invalid continuation byte"
            else if b = 0xe0 && b2 < 0xa0 then .error "invalid continuation byte"
            else if b = 0xed && 0xa0 ≤ b2 then .error "invalid continuation byte"
            else if !(0x80 ≤ b3 && b3 < 0xc0) then .error "invalid continuation byte"
            else
              match utf8Decode rest3 with
              | .error e => .error e
              | .ok cs =>
                  .ok (Char.ofNat ((b - 0xe0) * 4096 + (b2 - 0x80) * 64 + (b3 - 0x80)) :: cs)
      else if b < 0xf5 then
        match rest with
        | [] => .error "unexpected end of data"
        | [_] => .error "unexpected end of data"
        | [_, _] => .error "unexpected end of data"
        | b2 :: b3 :: b4 :: rest4 =>
            if !(0x80 ≤ b2 && b2 < 0xc0) then .error "invalid continuation byte"
            else if b = 0xf0 && b2 < 0x90 then .error "invalid continuation byte"
            else if b = 0xf4 && 0x90 ≤ b2 then .error "invalid continuation byte"
            else if !(0x80 ≤ b3 && b3 < 0xc0) then .error "invalid continuation byte"
            else if !(0x80 ≤ b4 && b4 < 0xc0) then .error "invalid continuation byte"
            else
              match utf8Decode rest4 with
              | .error e => .error e
              | .ok cs =>
                  .ok (Char.ofNat ((b - 0xf0) * 262144 + (b2 - 0x80) * 4096 +
                        (b3 - 0x80) * 64 + (b4 - 0x80)) :: cs)
      else .error "invalid start byte"

/-- The decode stage of `read_files_multi`, applied to the byte blobs the
thread pool downloaded (listing and transport are external collaborators;
the list comprehension consumes the futures in submission order): every
blob is decoded as UTF-8, and the first failing blob aborts the whole
fetch with its error — no partial list of documents is produced. -/
def read_files_multi (blobs : List (List Nat)) : Except String (List (List Char)) :=
  match blobs with
  | [] => .ok []
  | b :: bs =>
      match utf8Decode b with
      | .error e => .error e
      | .ok t =>
          match read_files_multi bs with
          | .error e => .error e
          | .ok ts => .ok (t :: ts)

/-- The `GetMatchCount` handler end to end for one request: fetch (decode
stage) then count; an error in either stage escapes with no count. -/
def handleGetMatchCount (blobs : List (List Nat)) (query : List Char) :
    Except String Nat :=
  match read_files_multi blobs with
  | .error e => .error e
  | .ok texts => ShakesappService.GetMatchCount texts query

/-- Specification-side count for one document: the number of its
newline-split lines whose lowercase form the compiled query matches. -/
def specCountDoc (r : Regex) (t : List Char) : Nat :=
  ((pySplit t).filter (fun l => rsearch r (lowerStr l))).length

/-- Specification-side count for a corpus: the sum over all documents of
the per-document matching-line count. -/
def specCount (r : Regex) (texts : List (List Char)) : Nat :=
  (texts.map (specCountDoc r)).sum

/-- Total number of newline-split segments across the corpus. -/
def totalSegments (texts : List (List Char)) : Nat :=
  (texts.map (fun t => (pySplit t).length)).sum

/-- Stated from the spec's words for comparison: the number of non-empty
newline-split lines across the corpus. -/
def nonEmptyLineCount (texts : List (List Char)) : Nat :=
  (texts.map (fun t => ((pySplit t).filter (fun l => !l.isEmpty)).length)).sum

/-- Splitting never yields the empty list of segments (Python
`"".split("\n") == [""]`). -/
theorem pySplit_ne_nil (cs : List Char) : pySplit cs ≠ [] := by
  induction cs with
  | nil => simp [pySplit]
  | cons c rest ih =>
    simp only [pySplit]
    by_cases hc : c = '\n'
    · simp [hc]
    · simp only [hc, if_false]
      cases h : pySplit rest with
      | nil => simp
      | cons s ss => simp

/-- Splitting distributes over a separator occurrence. -/
theorem pySplit_append (a b : List Char) :
    pySplit (a ++ '\n' :: b) = pySplit a ++ pySplit b := by
  induction a with
  | nil => simp [pySplit]
  | cons c rest ih =>
    by_cases hc : c = '\n'
    · simp [pySplit, hc, ih]
    · simp only [List.cons_append, pySplit, hc, if_false]
      rw [List.append_eq, ih]
      cases h : pySplit rest with
      | nil => exact absurd h (pySplit_ne_nil rest)
      | cons s ss => simp [h]

/-- A text with no newline is a single segment. -/
theorem pySplit_no_nl (s : List Char) (h : '\n' ∉ s) : pySplit s = [s] := by
  induction s with
  | nil => rfl
  | cons c rest ih =>
    have hc : c ≠ '\n' := fun hcn => h (hcn ▸ List.mem_cons_self c rest)
    have hrest : '\n' ∉ rest := fun hm => h (List.mem_cons_of_mem c hm)
    simp [pySplit, hc, ih hrest]

/-- The empty pattern matches every line. -/
theorem rsearch_epsilon (s : List Char) : rsearch Regex.epsilon s = true := by
  cases s with
  | nil => rfl
  | cons c cs => simp [rsearch, matchesSomeStart, Regex.nullable]

/-- With a well-formed query, the line loop adds exactly the number of
matching lines to the accumulator. -/
theorem countLinesM_of_parse {q : List Char} {r : Regex}
    (hp : parseRegex q = .ok r) (ls : List (List Char)) (acc : Nat) :
    countLinesM q acc ls =
      .ok (acc + (ls.filter (fun l => rsearch r (lowerStr l))).length) := by
  induction ls generalizing acc with
  | nil => simp [countLinesM]
  | cons l ls ih =>
    simp only [countLinesM, searchLine, hp]
    rw [ih]
    by_cases hm : rsearch r (lowerStr l)
    · simp only [hm, if_true, List.filter_cons_of_pos, List.length_cons]
      exact congrArg Except.ok (by omega)
    · simp only [hm]
      simp [List.filter_cons, hm]

/-- With a well-formed query, the document loop adds exactly the
specification count to the accumulator. -/
theorem countTextsM_of_parse {q : List Char} {r : Regex}
    (hp : parseRegex q = .ok r) (ts : List (List Char)) (acc : Nat) :
    countTextsM q acc ts = .ok (acc + specCount r ts) := by
  induction ts generalizing acc with
  | nil => simp [countTextsM, specCount]
  | cons t ts ih =>
    simp only [countTextsM, countDoc]
    rw [countLinesM_of_parse hp]
    show countTextsM q (acc + specCountDoc r t) ts = _
    rw [ih]
    simp only [specCount, specCountDoc, List.map_cons, List.sum_cons]
    exact congrArg Except.ok (by omega)

/-- Master lemma: on a well-formed query the handler computes the
specification count. -/
theorem gmc_spec {query : List Char} {r : Regex} (texts : List (List Char))
    (hp : parseRegex (lowerStr query) = .ok r) :
    ShakesappService.GetMatchCount texts query = .ok (specCount r texts) := by
  unfold ShakesappService.GetMatchCount
  rw [countTextsM_of_parse hp]
  simp

/-- With a malformed query, the line loop fails on its first line. -/
theorem countLinesM_parse_error {q : List Char} {e : String}
    (hp : parseRegex q = .error e) (l : List Char) (ls : List (List Char))
    (acc : Nat) : countLinesM q acc (l :: ls) = .error e := by
  simp [countLinesM, searchLine, hp]

/-- A successful run of the line loop over at least one line implies the
query compiled. -/
theorem countLinesM_ok_parse {q : List Char} {acc n : Nat} {l : List Char}
    {ls : List (List Char)} (h : countLinesM q acc (l :: ls) = .ok n) :
    ∃ r, parseRegex q = .ok r := by
  cases hp : parseRegex q with
  | error e => rw [countLinesM_parse_error hp] at h; exact absurd h (by simp)
  | ok r => exact ⟨r, rfl⟩

/-- A successful run of the document loop over at least one document
implies the query compiled (every document yields at least one line). -/
theorem countTextsM_ok_parse {q : List Char} {acc n : Nat} {t : List Char}
    {ts : List (List Char)} (h : countTextsM q acc (t :: ts) = .ok n) :
    ∃ r, parseRegex q = .ok r := by
  cases hp : parseRegex q with
  | error e =>
    have hne := pySplit_ne_nil t
    cases hs : pySplit t with
    | nil => exact absurd hs hne
    | cons l ls =>
      have hdoc : countDoc q acc t = .error e := by
        rw [countDoc, hs, countLinesM_parse_error hp]
      rw [countTextsM, hdoc] at h
      exact absurd h (by simp)
  | ok r => exact ⟨r, rfl⟩

/-- The specification count is additive over corpus concatenation. -/
theorem specCount_append (r : Regex) (d1 d2 : List (List Char)) :
    specCount r (d1 ++ d2) = specCount r d1 + specCount r d2 := by
  simp [specCount]

/-- The specification count of a corpus never exceeds its segment count. -/
theorem specCount_le_totalSegments (r : Regex) (texts : List (List Char)) :
    specCount r texts ≤ totalSegments texts := by
  unfold specCount totalSegments
  refine List.sum_le_sum ?_
  intro t _
  exact List.length_filter_le _ _

/-- The empty query compiles to the empty pattern. -/
theorem parseRegex_nil : parseRegex (lowerStr []) = .ok Regex.epsilon := rfl

/-- On the empty pattern the specification count is the segment count. -/
theorem specCount_epsilon (texts : List (List Char)) :
    specCount Regex.epsilon texts = totalSegments texts := by
  unfold specCount totalSegments
  congr 1
  refine List.map_congr_left ?_
  intro t _
  unfold specCountDoc
  congr 1
  refine List.filter_eq_self.mpr ?_
  intro l _
  exact rsearch_epsilon (lowerStr l)

/-- Claim C1: for every corpus and every well-formed query (one the
pattern compiler accepts), `GetMatchCount` returns the sum, over all
documents and over all newline-split lines, of 1 for each line whose
lowercase form contains at least one match of the lowercased query; a
line counts at most once however many occurrences it holds. The handler
is a pure function of the corpus snapshot and the query, so the result is
deterministic. The concrete scenario of the spec is the witness below. -/
theorem getMatchCount_spec (texts : List (List Char)) (query : List Char)
    (r : Regex) (hp : parseRegex (lowerStr query) = .ok r) :
    ShakesappService.GetMatchCount texts query = .ok (specCount r texts) :=
  gmc_spec texts hp

/-- Witness for C1, the spec's concrete scenario: corpus
`["to be or not to be", "love is a fire"]` and query `"be"` give count 1
(the line matches once although "be" occurs twice in it). -/
theorem getMatchCount_spec_witness :
    ShakesappService.GetMatchCount
      ["to be or not to be".data, "love is a fire".data] "be".data =
      .ok 1 := by
  have h := getMatchCount_spec
    ["to be or not to be".data, "love is a fire".data] "be".data
    (Regex.cat (.lit 'b') (.cat (.lit 'e') .epsilon)) (by rfl)
  rw [h]
  rfl

/-- Claim C2, counterexample: the claim says the empty query counts only
non-empty lines, but the empty pattern also matches the empty line — on
the one-document corpus `[""]` the handler returns 1 while the corpus has
no non-empty line. -/
theorem emptyQuery_cex :
    ShakesappService.GetMatchCount [[]] [] = Except.ok 1 ∧
    nonEmptyLineCount [[]] = 0 := by
  exact ⟨rfl, rfl⟩

/-- Claim C2 as amended: the empty query matches every line, the empty
ones included, so the handler returns the total number of newline-split
segments across the corpus. -/
theorem getMatchCount_emptyQuery (texts : List (List Char)) :
    ShakesappService.GetMatchCount texts [] = .ok (totalSegments texts) := by
  rw [gmc_spec texts parseRegex_nil, specCount_epsilon]

/-- Claim C3, counterexample: the claim says an empty document yields
zero lines; in fact splitting the empty text yields one line (the empty
line), and that line is counted when the query matches the empty string
(here: the empty query), so an empty document can contribute to the
count. -/
theorem pySplit_empty_cex :
    (pySplit []).length = 1 ∧
    ShakesappService.GetMatchCount [[]] [] = Except.ok 1 := by
  exact ⟨rfl, rfl⟩

/-- Claim C3 as amended: a text with no newline at all is one whole line;
a document not ending in a newline yields the segment after its last
newline as its last line; and the empty document yields exactly one line,
the empty line (not zero lines). -/
theorem pySplit_lines (a s : List Char) (hs : '\n' ∉ s) :
    pySplit s = [s] ∧
    (pySplit (a ++ '\n' :: s)).getLast? = some s ∧
    pySplit [] = [[]] := by
  refine ⟨pySplit_no_nl s hs, ?_, rfl⟩
  rw [pySplit_append, pySplit_no_nl s hs]
  simp

/-- Witness for C3 as amended, at document "a\nb": the final segment "b"
follows the last newline and is yielded as the last line. -/
theorem pySplit_lines_witness :
    (pySplit ('a' :: '\n' :: ['b'])).getLast? = some ['b'] :=
  (pySplit_lines ['a'] ['b'] (by decide)).2.1

/-- Claim C4: for every service name, `Watch` produces the single status
UNIMPLEMENTED and the stream ends; the returned list is the entire
stream, so no further values ever arrive. -/
theorem watch_single_unimplemented (service : String) :
    ShakesappService.Watch service =
      [ShakesappService.HealthStatus.UNIMPLEMENTED] :=
  rfl

/-- Claim C5: a query with a regex metacharacter is a pattern, not a
literal: on the one-line corpus `["axb"]` the query `"a.b"` counts the
line as a match, although `"a.b"` does not occur in it as a literal
substring. -/
theorem regex_metachar_matches :
    ShakesappService.GetMatchCount ["axb".data] "a.b".data = Except.ok 1 ∧
    ¬ List.IsInfix "a.b".data "axb".data := by
  exact ⟨rfl, by decide⟩

/-- Claim C6: if any downloaded blob is not valid UTF-8, the decode stage
of the corpus fetch fails as a whole — no partial document list — and the
request handler returns an error instead of any count. -/
theorem decode_error_aborts (blobs : List (List Nat)) (query : List Char)
    (b : List Nat) (e : String) (hmem : b ∈ blobs)
    (hb : utf8Decode b = .error e) :
    (∃ e2, read_files_multi blobs = .error e2) ∧
    (∃ e2, handleGetMatchCount blobs query = .error e2) := by
  have hfetch : ∃ e2, read_files_multi blobs = .error e2 := by
    induction blobs with
    | nil => exact absurd hmem (List.not_mem_nil b)
    | cons b0 bs ih =>
      cases hd : utf8Decode b0 with
      | error e0 => exact ⟨e0, by rw [read_files_multi, hd]⟩
      | ok t =>
        rcases List.mem_cons.mp hmem with hbb | hbs
        · rw [hbb] at hb; rw [hb] at hd; exact absurd hd (by simp)
        · rcases ih hbs with ⟨e2, h2⟩
          exact ⟨e2, by rw [read_files_multi, hd, h2]⟩
  rcases hfetch with ⟨e2, h2⟩
  exact ⟨⟨e2, h2⟩, ⟨e2, by rw [handleGetMatchCount, h2]⟩⟩

/-- Witness for C6: the single blob `[0xff]` is not valid UTF-8, so the
fetch and the whole request fail. -/
theorem decode_error_aborts_witness :
    (∃ e2, read_files_multi [[255]] = .error e2) ∧
    (∃ e2, handleGetMatchCount [[255]] [] = .error e2) :=
  decode_error_aborts [[255]] [] [255] "invalid start byte"
    (List.mem_singleton.mpr rfl) rfl

/-- Claim C7: a malformed query (one the pattern compiler rejects) makes
the matching step fail on the first line it examines, and the pattern
error — not a sanitized query, not a literal-substring fallback —
escapes the handler with no count. The corpus fetched by the server is
non-empty, which the hypothesis `texts ≠ []` records; with no documents
at all the matcher would never run (see the loop structure in
`countTextsM`). -/
theorem malformed_query_errors (texts : List (List Char))
    (query : List Char) (e : String) (hne : texts ≠ [])
    (hp : parseRegex (lowerStr query) = .error e) :
    ShakesappService.GetMatchCount texts query = .error e := by
  cases texts with
  | nil => exact absurd rfl hne
  | cons t ts =>
    unfold ShakesappService.GetMatchCount
    cases hs : pySplit t with
    | nil => exact absurd hs (pySplit_ne_nil t)
    | cons l ls =>
      have hdoc : countDoc (lowerStr query) 0 t = .error e := by
        rw [countDoc, hs, countLinesM_parse_error hp]
      rw [countTextsM, hdoc]

/-- Witness for C7: the unbalanced-bracket query `"["` fails on the
one-document corpus `["a"]` with the pattern error. -/
theorem malformed_query_errors_witness :
    ShakesappService.GetMatchCount [['a']] ['['] =
      Except.error "unterminated character set" :=
  malformed_query_errors [['a']] ['['] "unterminated character set"
    (by simp) rfl

/-- Claim C8: for every service name, the empty and unknown ones
included, `Check` answers SERVING; the argument is never inspected. -/
theorem check_always_serving (service : String) :
    ShakesappService.Check service = ShakesappService.HealthStatus.SERVING :=
  rfl

/-- Claim C9: the match count is additive over the document list: if the
handler returns `n1` on corpus `d1` and `n2` on corpus `d2`, it returns
`n1 + n2` on their concatenation — so adding documents never decreases
the count (`n1 ≤ n1 + n2` in the conclusion). -/
theorem getMatchCount_additive (q : List Char) (d1 d2 : List (List Char))
    (n1 n2 : Nat) (h1 : ShakesappService.GetMatchCount d1 q = .ok n1)
    (h2 : ShakesappService.GetMatchCount d2 q = .ok n2) :
    ShakesappService.GetMatchCount (d1 ++ d2) q = .ok (n1 + n2) ∧
    n1 ≤ n1 + n2 := by
  refine ⟨?_, Nat.le_add_right n1 n2⟩
  cases d2 with
  | nil =>
    have hn2 : n2 = 0 := by
      have : (Except.ok 0 : Except String Nat) = .ok n2 := h2
      exact (Except.ok.injEq _ _).mp this.symm
    rw [List.append_nil, hn2, Nat.add_zero]
    exact h1
  | cons t ts =>
    have h2' := h2
    unfold ShakesappService.GetMatchCount at h2'
    rcases countTextsM_ok_parse h2' with ⟨r, hp⟩
    have e1 := gmc_spec d1 hp
    have e2 := gmc_spec (t :: ts) hp
    rw [e1] at h1
    rw [e2] at h2
    have hn1 : specCount r d1 = n1 := (Except.ok.injEq _ _).mp h1
    have hn2 : specCount r (t :: ts) = n2 := (Except.ok.injEq _ _).mp h2
    rw [gmc_spec (d1 ++ t :: ts) hp, specCount_append, hn1, hn2]

/-- Witness for C9: corpus `["a"]` counts 1 for query `"a"`, corpus
`["b\na"]` counts 1, and their concatenation counts 2. -/
theorem getMatchCount_additive_witness :
    ShakesappService.GetMatchCount (["a".data] ++ ["b\na".data]) "a".data =
      Except.ok 2 ∧ 1 ≤ 1 + 1 :=
  getMatchCount_additive "a".data ["a".data] ["b\na".data] 1 1 rfl rfl

/-- Claim C10: whenever the handler returns a count, it is non-negative
(it is a natural number) and bounded by the total number of newline-split
segments of the corpus: each segment increments the counter at most
once. -/
theorem getMatchCount_bounded (texts : List (List Char)) (q : List Char)
    (n : Nat) (h : ShakesappService.GetMatchCount texts q = .ok n) :
    0 ≤ n ∧ n ≤ totalSegments texts := by
  refine ⟨Nat.zero_le n, ?_⟩
  cases texts with
  | nil =>
    have : (Except.ok 0 : Except String Nat) = .ok n := h
    have hn : n = 0 := ((Except.ok.injEq _ _).mp this).symm
    rw [hn]
    exact Nat.zero_le _
  | cons t ts =>
    have h' := h
    unfold ShakesappService.GetMatchCount at h'
    rcases countTextsM_ok_parse h' with ⟨r, hp⟩
    rw [gmc_spec (t :: ts) hp] at h
    have hn : specCount r (t :: ts) = n := (Except.ok.injEq _ _).mp h
    rw [← hn]
    exact specCount_le_totalSegments r (t :: ts)

/-- Witness for C10: on corpus `["a\nb"]` (two segments) and query `"a"`
the count 1 is within the segment bound. -/
theorem getMatchCount_bounded_witness :
    0 ≤ 1 ∧ 1 ≤ totalSegments ["a\nb".data] :=
  getMatchCount_bounded ["a\nb".data] "a".data 1 rfl

end Shakesapp
